import Mathlib

/-!
Shallow embedding of the FlareXes/obfile repository: `src/cryptfile.py`
(classes `Template.CipherConfig`, `Utils`, `Security`, `Cryptfile`) and the
legacy `src/obsfile/security.py`.  External primitives (PyCryptodome scrypt,
AES-GCM, SHA-256, and Python `str()` of a bytes object) are modelled as the
fields of a `Prims` structure; randomness drawn by the code is passed in
explicitly; the filesystem is an association list; a Python exception that the
code never catches is an `Except`/`Outcome` error value.
-/

/-- Byte strings are lists of naturals (one per byte). -/
abbrev Bytes := List Nat

/-- Model of Python `s.encode("utf-8")` at the level of code points. -/
def strToBytes (s : String) : Bytes := s.data.map Char.toNat

/-- Exception classes the modelled code can raise.  `fileNotFound` is
`open()` on a missing path; `unpicklingError` is what `pickle.load` raises on
a malformed or truncated stream; `integrityError` is the
`ValueError("MAC check failed")` raised by `decrypt_and_verify` (the failure
the spec names `IntegrityError`).  `malformedContainer` is modelled from the
spec: the dedicated `MalformedContainerError` class that section 7 of the spec
requires; the code defines no such class, so no code path below produces it. -/
inductive PyError where
  | fileNotFound
  | unpicklingError
  | integrityError
  | malformedContainer
deriving DecidableEq

/-- The dataclass `Template.CipherConfig` of `src/cryptfile.py` (lines 16-25):
ciphertext, salt, tag, nonce, and a filename defaulting to the empty string. -/
structure CipherConfig where
  ciphertext : Bytes
  salt : Bytes
  tag : Bytes
  nonce : Bytes
  filename : String := ""
deriving DecidableEq

/-- External cryptographic primitives used by the code, kept abstract:
`scrypt password salt key_len N r p` (PyCryptodome `Protocol.KDF.scrypt`),
`pyStr` (Python `str()` applied to a bytes object, as the code does before
feeding scrypt), `sha256hex` (SHA-256 hexdigest of a UTF-8 encoded string),
`aeadEnc key nonce data` returning `(ciphertext, tag)` for AES-GCM with the
given fresh nonce, and `aeadDec key nonce ciphertext tag` returning `some`
plaintext on MAC success and `none` on MAC failure. -/
structure Prims where
  scrypt : String → String → Nat → Nat → Nat → Nat → Bytes
  pyStr : Bytes → String
  sha256hex : String → String
  aeadEnc : Bytes → Bytes → Bytes → Bytes × Bytes
  aeadDec : Bytes → Bytes → Bytes → Bytes → Option Bytes

/-- One pickled field: a length marker followed by the payload. -/
def pickleField (b : Bytes) : Bytes := b.length :: b

/-- Model of `pickle.dump(data.__dict__, f, -1)` in `Utils.save_cc`
(src/cryptfile.py lines 61-72): the five fields of the `__dict__`, in
dataclass declaration order, each length-prefixed, binary-exact. -/
def pickleDumpCC (cc : CipherConfig) : Bytes :=
  pickleField cc.ciphertext ++ (pickleField cc.salt ++ (pickleField cc.tag ++
    (pickleField cc.nonce ++ pickleField (strToBytes cc.filename))))

/-- Read one length-prefixed field from a stream; a missing marker or a
payload shorter than the marker announces is an unpickling failure, exactly
as `pickle.load` fails on a truncated stream. -/
def readField : Bytes → Except PyError (Bytes × Bytes)
  | [] => .error .unpicklingError
  | n :: rest =>
    if rest.length < n then .error .unpicklingError
    else .ok (rest.take n, rest.drop n)

/-- Model of `pickle.load` followed by `Template.CipherConfig(**data_dict)` in
`Utils.open_file` (src/cryptfile.py lines 101-104): read the five fields back
in order and rebuild the dataclass; trailing bytes beyond one complete object
are ignored, as `pickle.load` ignores them. -/
def pickleLoadCC (s : Bytes) : Except PyError CipherConfig :=
  match readField s with
  | .error e => .error e
  | .ok (ciphertext, s1) =>
    match readField s1 with
    | .error e => .error e
    | .ok (salt, s2) =>
      match readField s2 with
      | .error e => .error e
      | .ok (tag, s3) =>
        match readField s3 with
        | .error e => .error e
        | .ok (nonce, s4) =>
          match readField s4 with
          | .error e => .error e
          | .ok (fname, _) =>
            .ok { ciphertext := ciphertext, salt := salt, tag := tag,
                  nonce := nonce, filename := String.mk (fname.map Char.ofNat) }

/-- The filesystem: an association list from path to contents; a write
prepends and thereby shadows any older entry for the same path. -/
abbrev FS := List (String × Bytes)

/-- Read a file from the modelled filesystem. -/
def fsRead (fs : FS) (name : String) : Option Bytes :=
  match fs.find? (fun p => p.1 == name) with
  | some p => some p.2
  | none => none

/-- Write (create or truncate) a file in the modelled filesystem. -/
def fsWrite (fs : FS) (name : String) (data : Bytes) : FS :=
  (name, data) :: fs

namespace Utils

/-- `Utils.attrs` (src/cryptfile.py lines 31-41): `astuple` of a
`CipherConfig`, in field order. -/
def attrs (cc : CipherConfig) : Bytes × Bytes × Bytes × Bytes × String :=
  (cc.ciphertext, cc.salt, cc.tag, cc.nonce, cc.filename)

/-- `Utils._rename` (src/cryptfile.py lines 43-59): strip a trailing `.enc`,
otherwise append `.cryptfile` (printing a warning).  Python's
`file.endswith(".enc")` and `file[:-4]` are modelled on the character list of
the string.  Note that nothing in the file ever calls this function. -/
def _rename (file : String) : String :=
  if List.isSuffixOf ".enc".data file.data then
    String.mk (file.data.take (file.data.length - 4))
  else file ++ ".cryptfile"

/-- `Utils.save_cc` (src/cryptfile.py lines 61-72): pickle the config's
`__dict__` into the file named `file + ".enc"`. -/
def save_cc (fs : FS) (data : CipherConfig) (file : String) : FS :=
  fsWrite fs (file ++ ".enc") (pickleDumpCC data)

/-- `Utils.save_file` (src/cryptfile.py lines 74-85): write raw bytes. -/
def save_file (fs : FS) (data : Bytes) (filename : String) : FS :=
  fsWrite fs filename data

/-- `Utils.open_file` with `pickled=False` (src/cryptfile.py lines 87-107):
read the raw bytes of a file; a missing file raises. -/
def open_file (fs : FS) (file : String) : Except PyError Bytes :=
  match fsRead fs file with
  | some data => .ok data
  | none => .error .fileNotFound

/-- `Utils.open_file` with `pickled=True` (src/cryptfile.py lines 87-107):
read the file and unpickle a `CipherConfig` from it. -/
def open_file_pickled (fs : FS) (file : String) : Except PyError CipherConfig :=
  match fsRead fs file with
  | some data => pickleLoadCC data
  | none => .error .fileNotFound

end Utils

/-- The `Security` object state (src/cryptfile.py lines 129-145). -/
structure Security where
  mp : Bytes
  cost_factor : Nat
  rounds : Nat
  parallel_factor : Nat
  key_length : Nat
deriving DecidableEq

/-- `Security.__init__` (src/cryptfile.py lines 132-145): store the master
password hash and fix the scrypt cost parameters. -/
def Security.init (master_password_hash : Bytes) : Security :=
  { mp := master_password_hash, cost_factor := 2 ^ 20, rounds := 8,
    parallel_factor := 1, key_length := 32 }

/-- `Security.getpass` (src/cryptfile.py lines 147-169).  `stdin` is the list
of interactive entries.  The first entry is hashed immediately; with
`no_check` the hash is returned after one entry; otherwise a second entry is
read, hashed, and compared, and a mismatch is `sys.exit(1)`.  The result
carries the UTF-8 encoded hex digest and the unconsumed entries. -/
def Security.getpassRun (P : Prims) (stdin : List String) (no_check : Bool) :
    Except Nat (Bytes × List String) :=
  let p1 := P.sha256hex (stdin.headD "")
  if no_check then .ok (strToBytes p1, stdin.tail)
  else
    let p2 := P.sha256hex (stdin.tail.headD "")
    if p1 = p2 then .ok (strToBytes p1, stdin.tail.tail)
    else .error 1

/-- `Security._kdf_scrypt` (src/cryptfile.py lines 171-188): scrypt over the
`str()` of the master password hash and the `str()` of the salt, with the
instance's cost parameters. -/
def Security._kdf_scrypt (P : Prims) (S : Security) (_salt : Bytes) : Bytes :=
  P.scrypt (P.pyStr S.mp) (P.pyStr _salt) S.key_length S.cost_factor S.rounds
    S.parallel_factor

/-- `Security.encrypt` (src/cryptfile.py lines 190-208).  `saltRand` is the
`get_random_bytes(32)` draw and `nonceRand` the nonce the fresh GCM cipher
object picks; the key is derived from the drawn salt and the config is built
from the AEAD output with the default empty filename. -/
def Security.encrypt (P : Prims) (S : Security) (saltRand nonceRand : Bytes)
    (data : Bytes) : CipherConfig :=
  let _salt := saltRand
  let key := Security._kdf_scrypt P S _salt
  let ct := P.aeadEnc key nonceRand data
  { ciphertext := ct.1, salt := _salt, tag := ct.2, nonce := nonceRand }

/-- `Security.decrypt` (src/cryptfile.py lines 210-229): destructure the
config with `Utils.attrs`, re-derive the key from the stored salt, and
decrypt-and-verify; a MAC failure raises (modelled as `integrityError`) and
no plaintext is returned. -/
def Security.decrypt (P : Prims) (S : Security) (cc : CipherConfig) :
    Except PyError Bytes :=
  match Utils.attrs cc with
  | (ciphertext, _salt, tag, nonce, _) =>
    let key := Security._kdf_scrypt P S _salt
    match P.aeadDec key nonce ciphertext tag with
    | some data => .ok data
    | none => .error .integrityError

/-- Observable outcome of a batch run: normal return, `sys.exit` with a code,
or an uncaught exception; each carries the filesystem state at that point. -/
inductive Outcome where
  | ok : FS → Outcome
  | exited : Nat → FS → Outcome
  | raised : PyError → FS → Outcome
deriving DecidableEq

namespace Cryptfile

/-- One iteration of the `encrypt_file` loop body (src/cryptfile.py lines
260-270): read the file, encrypt with a fresh salt/nonce draw, set the
config's filename to the source path, and save to `file + ".enc"`. -/
def encryptOne (P : Prims) (password_hash : Bytes) (rand : Bytes × Bytes)
    (fs : FS) (file : String) : Except PyError FS :=
  match Utils.open_file fs file with
  | .error e => .error e
  | .ok data =>
    let cc := Security.encrypt P (Security.init password_hash) rand.1 rand.2 data
    let cc := { cc with filename := file }
    .ok (Utils.save_cc fs cc file)

/-- The `encrypt_file` loop (src/cryptfile.py lines 260-270).  There is no
try/except around the body, so the first exception stops the whole loop;
the result is the filesystem reached so far plus the uncaught exception, if
any.  Each file consumes one fresh randomness draw. -/
def encryptLoop (P : Prims) (password_hash : Bytes) :
    List (Bytes × Bytes) → List String → FS → FS × Option PyError
  | _, [], fs => (fs, none)
  | rands, file :: files, fs =>
    match encryptOne P password_hash (rands.headD ([], [])) fs file with
    | .error e => (fs, some e)
    | .ok fs2 => encryptLoop P password_hash rands.tail files fs2

/-- `Cryptfile.encrypt_file` (src/cryptfile.py lines 246-270): one checked
passphrase entry for the whole batch, then the loop over the files. -/
def encrypt_file (P : Prims) (stdin : List String) (rands : List (Bytes × Bytes))
    (files : List String) (fs : FS) : Outcome :=
  match Security.getpassRun P stdin false with
  | .error code => .exited code fs
  | .ok (password_hash, _) =>
    match encryptLoop P password_hash rands files fs with
    | (fs2, none) => .ok fs2
    | (fs2, some e) => .raised e fs2

/-- One iteration of the `decrypt_file` loop body (src/cryptfile.py lines
282-290): unpickle the config, decrypt, and save the plaintext under
`cc.filename` — the name stored inside the container, not a name derived
from the artifact's own path. -/
def decryptOne (P : Prims) (password_hash : Bytes) (fs : FS) (file : String) :
    Except PyError FS :=
  match Utils.open_file_pickled fs file with
  | .error e => .error e
  | .ok cc =>
    match Security.decrypt P (Security.init password_hash) cc with
    | .error e => .error e
    | .ok data => .ok (Utils.save_file fs data cc.filename)

/-- The `decrypt_file` loop (src/cryptfile.py lines 282-290).  No try/except:
the first exception stops the loop, keeping the filesystem reached so far. -/
def decryptLoop (P : Prims) (password_hash : Bytes) :
    List String → FS → FS × Option PyError
  | [], fs => (fs, none)
  | file :: files, fs =>
    match decryptOne P password_hash fs file with
    | .error e => (fs, some e)
    | .ok fs2 => decryptLoop P password_hash files fs2

/-- `Cryptfile.decrypt_file` (src/cryptfile.py lines 272-290): one unchecked
passphrase entry, then the loop over the files. -/
def decrypt_file (P : Prims) (stdin : List String) (files : List String)
    (fs : FS) : Outcome :=
  match Security.getpassRun P stdin true with
  | .error code => .exited code fs
  | .ok (password_hash, _) =>
    match decryptLoop P password_hash files fs with
    | (fs2, none) => .ok fs2
    | (fs2, some e) => .raised e fs2

end Cryptfile

/-- The configs dict built by `src/obsfile/security.py` `encrypt`: the salt is
stored as the `str()` of the random draw, the other fields as raw bytes. -/
structure ObsConfigs where
  salt : String
  ciphertext : Bytes
  nonce : Bytes
  tag : Bytes
deriving DecidableEq

namespace Obsfile

/-- `encrypt` of src/obsfile/security.py (lines 6-14). -/
def encrypt (P : Prims) (randSalt randNonce : Bytes) (data : Bytes)
    (key : String) : ObsConfigs :=
  let random_bytes := P.pyStr randSalt
  let private_key := P.scrypt key random_bytes 32 (2 ^ 14) 8 1
  let ct := P.aeadEnc private_key randNonce data
  { salt := random_bytes, ciphertext := ct.1, nonce := randNonce, tag := ct.2 }

/-- `decrypt` of src/obsfile/security.py (lines 17-28), including its dead
store: a fresh random draw is bound to `random_bytes` and immediately
shadowed by the salt stored in `configs`. -/
def decrypt (P : Prims) (rand : Bytes) (configs : ObsConfigs) (key : String) :
    Except PyError Bytes :=
  let random_bytes := P.pyStr rand
  let random_bytes := configs.salt
  let ciphertext := configs.ciphertext
  let nonce := configs.nonce
  let tag := configs.tag
  let private_key := P.scrypt key random_bytes 32 (2 ^ 14) 8 1
  match P.aeadDec private_key nonce ciphertext tag with
  | some data => .ok data
  | none => .error .integrityError

end Obsfile

/-- Concrete executable instantiation of the primitives, used to evaluate the
model at concrete inputs: a toy KDF, a toy hash, and a toy AEAD whose tag
determines the plaintext. -/
def toyPrims : Prims where
  scrypt := fun pw salt klen _n _r _p => (strToBytes pw ++ strToBytes salt).take klen
  pyStr := fun b => String.mk (b.map Char.ofNat)
  sha256hex := fun s => String.append s "#"
  aeadEnc := fun key nonce data =>
    (data.map (fun x => x + key.sum), key ++ nonce ++ data)
  aeadDec := fun key nonce ct tag =>
    let data := ct.map (fun x => x - key.sum)
    if tag = key ++ nonce ++ data then some data else none

/-- Concrete example passphrase for evaluating the model. -/
def exPw : String := "pw"

/-- The hashed passphrase `Security.getpass` produces for `exPw` under the
toy primitives. -/
def exHash : Bytes := strToBytes (toyPrims.sha256hex exPw)

/-- A `Security` object for the example passphrase. -/
def exS : Security := Security.init exHash

/-- A well-formed encrypted container for the file `a.txt`. -/
def exCCa : CipherConfig :=
  { Security.encrypt toyPrims exS [1] [2] [10] with filename := "a.txt" }

/-- A container for `b.txt` whose tag has been tampered with. -/
def exCCb : CipherConfig :=
  { Security.encrypt toyPrims exS [3] [4] [20] with filename := "b.txt", tag := [] }

/-- A well-formed container for `c.txt`. -/
def exCCc : CipherConfig :=
  { Security.encrypt toyPrims exS [5] [6] [30] with filename := "c.txt" }

/-- A filesystem holding the three example containers. -/
def exFS : FS :=
  [("a.enc", pickleDumpCC exCCa), ("b.enc", pickleDumpCC exCCb),
    ("c.enc", pickleDumpCC exCCc)]

/-- A valid container stored under an artifact name without the `.enc`
suffix. -/
def exCC4 : CipherConfig :=
  { Security.encrypt toyPrims exS [7] [8] [42] with filename := "orig.txt" }

/-- A filesystem whose only artifact lacks the `.enc` suffix. -/
def exFS4 : FS := [("data.bin", pickleDumpCC exCC4)]

/-- A small concrete container for serialization experiments. -/
def exCC5 : CipherConfig :=
  { ciphertext := [1, 2], salt := [3], tag := [4], nonce := [5], filename := "f" }

/-- A filesystem for an example encryption batch: two existing source files;
the batch will also name a third, missing one. -/
def exGS : FS := [("x.txt", [77]), ("y.txt", [88])]

/-- The per-file salt/nonce randomness draws for the example encryption
batch. -/
def exRands : List (Bytes × Bytes) := [([11], [12]), ([13], [14]), ([15], [16])]

/-- The filesystem after the first file of the example encryption batch has
been encrypted and saved as `x.txt.enc`. -/
def exGS1 : FS :=
  Utils.save_cc exGS
    { Security.encrypt toyPrims (Security.init exHash) [11] [12] [77] with
      filename := "x.txt" } "x.txt"

theorem readField_pickleField (b r : Bytes) :
    readField (pickleField b ++ r) = .ok (b, r) := by
  have h : ¬ (b ++ r).length < b.length := by
    rw [List.length_append] ; omega
  simp [pickleField, readField, h, List.take_left, List.drop_left]

theorem readField_pickleField_nil (b : Bytes) :
    readField (pickleField b) = .ok (b, []) := by
  have h := readField_pickleField b []
  simpa using h

theorem strToBytes_inv (s : String) :
    String.mk ((strToBytes s).map Char.ofNat) = s := by
  have h : (strToBytes s).map Char.ofNat = s.data := by
    simp [strToBytes, List.map_map, Function.comp_def, Char.ofNat_toNat]
  rw [h]

theorem pickleLoad_pickleDump (cc : CipherConfig) :
    pickleLoadCC (pickleDumpCC cc) = .ok cc := by
  simp [pickleDumpCC, pickleLoadCC, List.append_assoc, readField_pickleField,
    readField_pickleField_nil, strToBytes_inv]

/-- C2: serializing any container with `Utils.save_cc` and reading the
produced `file + ".enc"` artifact back with `Utils.open_file` in pickled mode
returns a container equal to the original field-for-field: ciphertext, salt,
tag and nonce byte-for-byte, and the filename string preserved. -/
theorem c2_container_serialization_roundtrip (cc : CipherConfig) (file : String)
    (fs : FS) :
    Utils.open_file_pickled (Utils.save_cc fs cc file) (file ++ ".enc") =
      .ok cc := by
  simp [Utils.open_file_pickled, Utils.save_cc, fsWrite, fsRead,
    pickleLoad_pickleDump]

/-- C1: end-to-end round-trip.  For every choice of primitives, passphrase
hash, plaintext, and salt/nonce randomness drawn during encryption, if the
AEAD primitive verifies and inverts its own honest output at the derived key
(the defining property of AES-GCM), then `Security(H).decrypt` applied to
`Security(H).encrypt(P)` returns exactly the plaintext `P`. -/
theorem c1_encrypt_decrypt_roundtrip (P : Prims) (mph salt nonce data : Bytes)
    (h : P.aeadDec (Security._kdf_scrypt P (Security.init mph) salt) nonce
        (P.aeadEnc (Security._kdf_scrypt P (Security.init mph) salt) nonce data).1
        (P.aeadEnc (Security._kdf_scrypt P (Security.init mph) salt) nonce data).2 =
        some data) :
    Security.decrypt P (Security.init mph)
      (Security.encrypt P (Security.init mph) salt nonce data) = .ok data := by
  simp [Security.decrypt, Security.encrypt, Utils.attrs, h]

/-- Witness for C1 at a concrete passphrase hash, randomness, and plaintext
under the executable toy primitives. -/
theorem c1_roundtrip_witness :
    Security.decrypt toyPrims (Security.init [7])
      (Security.encrypt toyPrims (Security.init [7]) [1, 2] [3] [10, 20]) =
      .ok [10, 20] :=
  c1_encrypt_decrypt_roundtrip toyPrims [7] [1, 2] [3] [10, 20] (by decide)

/-- C6: integrity failure behaviour.  First conjunct: whenever the AEAD tag
check over the container's (ciphertext, key, nonce) fails, `Security.decrypt`
raises the MAC-failure error and returns no plaintext at all.  Second
conjunct: decrypting a container produced under passphrase hash `mp1` with a
different hash `mp2` fails the same way, whenever the AEAD primitive rejects
the honest ciphertext under the key derived from `mp2` (the authenticity
property of AES-GCM for a wrong key). -/
theorem c6_integrity_failure (P : Prims) (S : Security) (cc : CipherConfig)
    (mp1 mp2 salt nonce data : Bytes)
    (htag : P.aeadDec (Security._kdf_scrypt P S cc.salt) cc.nonce cc.ciphertext
        cc.tag = none)
    (hkey : P.aeadDec (Security._kdf_scrypt P (Security.init mp2) salt) nonce
        (P.aeadEnc (Security._kdf_scrypt P (Security.init mp1) salt) nonce data).1
        (P.aeadEnc (Security._kdf_scrypt P (Security.init mp1) salt) nonce data).2 =
        none) :
    Security.decrypt P S cc = .error .integrityError ∧
    Security.decrypt P (Security.init mp2)
      (Security.encrypt P (Security.init mp1) salt nonce data) =
      .error .integrityError := by
  constructor
  · simp [Security.decrypt, Utils.attrs, htag]
  · simp [Security.decrypt, Security.encrypt, Utils.attrs, hkey]

/-- Witness for C6: a concrete tampered container and a concrete
wrong-passphrase decryption under the toy primitives. -/
theorem c6_integrity_failure_witness :
    Security.decrypt toyPrims (Security.init [1])
      { ciphertext := [5], salt := [2], tag := [], nonce := [3] } =
      .error .integrityError ∧
    Security.decrypt toyPrims (Security.init [2])
      (Security.encrypt toyPrims (Security.init [1]) [4] [3] [9]) =
      .error .integrityError :=
  c6_integrity_failure toyPrims (Security.init [1])
    { ciphertext := [5], salt := [2], tag := [], nonce := [3] }
    [1] [2] [4] [3] [9] (by decide) (by decide)

/-- C8: key-derivation determinism.  The salt stored in the container
produced by encryption is the salt that was drawn, so the key derived from
the stored salt equals the key derived at encryption; `Security.decrypt`
derives its key by `_kdf_scrypt` on the container's stored salt; and both
directions run with the same fixed cost parameters set by `Security.__init__`:
cost factor 2^20, 8 rounds, parallelization 1, 32-byte key. -/
theorem c8_kdf_determinism (P : Prims) (mph salt nonce data : Bytes) :
    Security._kdf_scrypt P (Security.init mph)
        (Security.encrypt P (Security.init mph) salt nonce data).salt =
      Security._kdf_scrypt P (Security.init mph) salt ∧
    (∀ cc : CipherConfig,
      Security.decrypt P (Security.init mph) cc =
        match P.aeadDec (Security._kdf_scrypt P (Security.init mph) cc.salt)
            cc.nonce cc.ciphertext cc.tag with
        | some d => .ok d
        | none => .error .integrityError) ∧
    (Security.init mph).cost_factor = 2 ^ 20 ∧
    (Security.init mph).rounds = 8 ∧
    (Security.init mph).parallel_factor = 1 ∧
    (Security.init mph).key_length = 32 := by
  refine ⟨by simp [Security.encrypt], fun cc => rfl, rfl, rfl, rfl, rfl⟩

/-- C9: salt uniqueness across encryptions.  Two encryption runs over the
same plaintext and passphrase hash that draw distinct salts produce
containers whose stored salts are exactly the respective draws (used for that
operation only) and therefore differ; and the ciphertexts differ whenever the
AEAD outputs under the two derived keys and nonces differ (the expected
behaviour of AES-GCM under distinct keys). -/
theorem c9_salt_uniqueness (P : Prims) (mph salt1 nonce1 salt2 nonce2 data : Bytes)
    (hsalt : salt1 ≠ salt2)
    (hct : (P.aeadEnc (Security._kdf_scrypt P (Security.init mph) salt1) nonce1
        data).1 ≠
      (P.aeadEnc (Security._kdf_scrypt P (Security.init mph) salt2) nonce2
        data).1) :
    (Security.encrypt P (Security.init mph) salt1 nonce1 data).salt = salt1 ∧
    (Security.encrypt P (Security.init mph) salt2 nonce2 data).salt = salt2 ∧
    (Security.encrypt P (Security.init mph) salt1 nonce1 data).salt ≠
      (Security.encrypt P (Security.init mph) salt2 nonce2 data).salt ∧
    (Security.encrypt P (Security.init mph) salt1 nonce1 data).ciphertext ≠
      (Security.encrypt P (Security.init mph) salt2 nonce2 data).ciphertext := by
  refine ⟨rfl, rfl, ?_, ?_⟩
  · simpa [Security.encrypt] using hsalt
  · simpa [Security.encrypt] using hct

/-- Witness for C9: two concrete encryption runs with distinct salt draws
under the toy primitives. -/
theorem c9_salt_uniqueness_witness :
    (Security.encrypt toyPrims (Security.init [1]) [1] [5] [9]).salt = [1] ∧
    (Security.encrypt toyPrims (Security.init [1]) [2] [5] [9]).salt = [2] ∧
    (Security.encrypt toyPrims (Security.init [1]) [1] [5] [9]).salt ≠
      (Security.encrypt toyPrims (Security.init [1]) [2] [5] [9]).salt ∧
    (Security.encrypt toyPrims (Security.init [1]) [1] [5] [9]).ciphertext ≠
      (Security.encrypt toyPrims (Security.init [1]) [2] [5] [9]).ciphertext :=
  c9_salt_uniqueness toyPrims [1] [1] [5] [2] [5] [9] (by decide) (by decide)

/-- C10: the legacy `decrypt` of src/obsfile/security.py returns the same
result for any two values of its internal random draw: the freshly drawn
value is immediately shadowed by the salt stored in `configs`, so only
`(configs, key)` determine the plaintext. -/
theorem c10_decrypt_randomness_independent (P : Prims) (r1 r2 : Bytes)
    (configs : ObsConfigs) (key : String) :
    Obsfile.decrypt P r1 configs key = Obsfile.decrypt P r2 configs key := rfl

/-- C7: passphrase confirmation gate.  For an interactive encryption the
passphrase is entered twice; when the two hashed entries differ the whole
`encrypt_file` run exits with code 1 and the filesystem is exactly the
initial one (no file touched, no encryption performed).  For decryption,
`getpass` runs with `no_check=True`: exactly one entry is consumed and the
hash is returned with no confirmation. -/
theorem c7_confirmation_gate (P : Prims) (p1 p2 : String) (rest : List String)
    (rands : List (Bytes × Bytes)) (files : List String) (fs : FS)
    (hm : P.sha256hex p1 ≠ P.sha256hex p2) :
    Cryptfile.encrypt_file P (p1 :: p2 :: rest) rands files fs = .exited 1 fs ∧
    Security.getpassRun P (p1 :: rest) true =
      .ok (strToBytes (P.sha256hex p1), rest) := by
  constructor
  · simp [Cryptfile.encrypt_file, Security.getpassRun, hm]
  · simp [Security.getpassRun]

/-- Witness for C7: two distinct concrete passphrase entries abort a concrete
encryption batch with exit code 1 and leave the filesystem untouched; one
concrete decryption entry is consumed without confirmation. -/
theorem c7_confirmation_gate_witness :
    Cryptfile.encrypt_file toyPrims ["a", "b"] [] ["f"] [] = .exited 1 [] ∧
    Security.getpassRun toyPrims ["a"] true =
      .ok (strToBytes (toyPrims.sha256hex "a"), []) :=
  c7_confirmation_gate toyPrims "a" "b" [] [] ["f"] [] (by decide)

theorem decryptLoop_aborts (P : Prims) (ph : Bytes) (pre : List String)
    (file : String) (post : List String) (fs fs1 : FS) (e : PyError)
    (hpre : Cryptfile.decryptLoop P ph pre fs = (fs1, none))
    (hfail : Cryptfile.decryptOne P ph fs1 file = .error e) :
    Cryptfile.decryptLoop P ph (pre ++ file :: post) fs = (fs1, some e) := by
  induction pre generalizing fs with
  | nil =>
    simp only [Cryptfile.decryptLoop, Prod.mk.injEq] at hpre
    obtain ⟨h1, -⟩ := hpre
    subst h1
    simp [Cryptfile.decryptLoop, hfail]
  | cons f pre ih =>
    simp only [Cryptfile.decryptLoop] at hpre
    simp only [List.cons_append, Cryptfile.decryptLoop]
    cases h : Cryptfile.decryptOne P ph fs f with
    | error e2 =>
      rw [h] at hpre
      have h2 : (fs, some e2) = (fs1, (none : Option PyError)) := hpre
      simp at h2
    | ok fs2 =>
      rw [h] at hpre
      have h2 : Cryptfile.decryptLoop P ph pre fs2 = (fs1, none) := hpre
      show Cryptfile.decryptLoop P ph (pre ++ file :: post) fs2 = (fs1, some e)
      exact ih fs2 h2

theorem encryptLoop_aborts (P : Prims) (ph : Bytes) (pre : List String)
    (file : String) (post : List String) (rands : List (Bytes × Bytes))
    (fs fs1 : FS) (e : PyError)
    (hpre : Cryptfile.encryptLoop P ph rands pre fs = (fs1, none))
    (hfail : Cryptfile.encryptOne P ph ((rands.drop pre.length).headD ([], []))
        fs1 file = .error e) :
    Cryptfile.encryptLoop P ph rands (pre ++ file :: post) fs = (fs1, some e) := by
  induction pre generalizing fs rands with
  | nil =>
    simp only [Cryptfile.encryptLoop, Prod.mk.injEq] at hpre
    obtain ⟨h1, -⟩ := hpre
    subst h1
    simp only [List.length_nil, List.drop_zero] at hfail
    simp only [List.nil_append, Cryptfile.encryptLoop]
    rw [hfail]
  | cons f pre ih =>
    simp only [Cryptfile.encryptLoop] at hpre
    simp only [List.cons_append, Cryptfile.encryptLoop]
    cases h : Cryptfile.encryptOne P ph (rands.headD ([], [])) fs f with
    | error e2 =>
      rw [h] at hpre
      have h2 : (fs, some e2) = (fs1, (none : Option PyError)) := hpre
      simp at h2
    | ok fs2 =>
      rw [h] at hpre
      have h2 : Cryptfile.encryptLoop P ph rands.tail pre fs2 = (fs1, none) := hpre
      have h3 : Cryptfile.encryptOne P ph
          ((rands.tail.drop pre.length).headD ([], [])) fs1 file = .error e := by
        have h4 : rands.tail.drop pre.length = rands.drop (pre.length + 1) := by
          rw [← List.drop_one, List.drop_drop, Nat.add_comm]
        rw [h4]
        simpa [List.length_cons] using hfail
      show Cryptfile.encryptLoop P ph rands.tail (pre ++ file :: post) fs2 =
        (fs1, some e)
      exact ih rands.tail fs2 h2 h3

/-- C3 amended: both batch loops are fault-intolerant.  Decryption: if every
file in `pre` processes successfully (reaching filesystem `fs1`) and
processing `file` raises error `e` (bad tag, missing file), the loop stops at
`file`: the outputs of the files in `pre` remain persisted in `fs1`, the
error propagates uncaught, and none of the files in `post` is processed.
Encryption: the same, with the per-file randomness stream advanced past
`pre2`: a per-file error (such as an I/O error on a missing source file)
aborts the batch at `file2`, earlier `.enc` outputs persisted in `gs1`,
later files unprocessed. -/
theorem c3_batch_aborts_at_failure (P : Prims) (ph : Bytes) (pre : List String)
    (file : String) (post : List String) (fs fs1 : FS) (e : PyError)
    (pre2 : List String) (file2 : String) (post2 : List String)
    (rands : List (Bytes × Bytes)) (gs gs1 : FS) (e2 : PyError)
    (hpre : Cryptfile.decryptLoop P ph pre fs = (fs1, none))
    (hfail : Cryptfile.decryptOne P ph fs1 file = .error e)
    (hpre2 : Cryptfile.encryptLoop P ph rands pre2 gs = (gs1, none))
    (hfail2 : Cryptfile.encryptOne P ph ((rands.drop pre2.length).headD ([], []))
        gs1 file2 = .error e2) :
    Cryptfile.decryptLoop P ph (pre ++ file :: post) fs = (fs1, some e) ∧
    Cryptfile.encryptLoop P ph rands (pre2 ++ file2 :: post2) gs =
      (gs1, some e2) :=
  ⟨decryptLoop_aborts P ph pre file post fs fs1 e hpre hfail,
    encryptLoop_aborts P ph pre2 file2 post2 rands gs gs1 e2 hpre2 hfail2⟩

/-- Witness for C3 amended: a concrete decryption batch in which the second
file's tampered tag stops the loop with the first output persisted and the
third file untouched, and a concrete encryption batch in which a missing
second source file stops the loop right after the first `.enc` output. -/
theorem c3_batch_aborts_at_failure_witness :
    Cryptfile.decryptLoop toyPrims exHash (["a.enc"] ++ "b.enc" :: ["c.enc"])
      exFS = (("a.txt", [10]) :: exFS, some .integrityError) ∧
    Cryptfile.encryptLoop toyPrims exHash exRands
      (["x.txt"] ++ "missing.txt" :: ["y.txt"]) exGS =
      (exGS1, some .fileNotFound) :=
  c3_batch_aborts_at_failure toyPrims exHash ["a.enc"] "b.enc" ["c.enc"] exFS
    (("a.txt", [10]) :: exFS) .integrityError ["x.txt"] "missing.txt" ["y.txt"]
    exRands exGS exGS1 .fileNotFound (by rfl) (by rfl) (by rfl) (by rfl)

/-- C3 is false as stated: in the concrete batch `a.enc, b.enc, c.enc` where
`b.enc` has a tampered tag, the run ends with the uncaught MAC failure (not a
caught-and-reported per-file error), and `c.enc` — a file after the failing
one — is never processed: its output `c.txt` does not exist, while the
earlier output `a.txt` is persisted. -/
theorem c3_counterexample :
    Cryptfile.decrypt_file toyPrims [exPw] ["a.enc", "b.enc", "c.enc"] exFS =
      .raised .integrityError (("a.txt", [10]) :: exFS) ∧
    fsRead (("a.txt", [10]) :: exFS) "c.txt" = none ∧
    fsRead (("a.txt", [10]) :: exFS) "a.txt" = some [10] := by decide

/-- C4 is false as stated: decrypting the artifact `data.bin` (no `.enc`
suffix) succeeds but writes the plaintext to `orig.txt` — the filename
recorded inside the container — not to the fallback name
`data.bin.cryptfile`, which does not exist after the run.  The `.cryptfile`
fallback lives in `Utils._rename`, which `decrypt_file` never invokes. -/
theorem c4_counterexample :
    Cryptfile.decrypt_file toyPrims [exPw] ["data.bin"] exFS4 =
      .ok (("orig.txt", [42]) :: exFS4) ∧
    fsRead (("orig.txt", [42]) :: exFS4) "data.bin.cryptfile" = none ∧
    fsRead (("orig.txt", [42]) :: exFS4) "orig.txt" = some [42] ∧
    Utils._rename "data.bin" = "data.bin.cryptfile" := by decide

/-- C4 amended: decrypting an artifact whose path does not end in `.enc`
does not fail on account of the name; the recovered plaintext is written
under the filename stored inside the container, whatever the artifact's own
path is.  `Utils._rename` would map a suffix-less name to the `.cryptfile`
fallback, but no caller of it exists in the decryption path. -/
theorem c4_output_named_from_container (P : Prims) (ph : Bytes) (fs : FS)
    (file : String) (cc : CipherConfig) (data : Bytes)
    (hopen : Utils.open_file_pickled fs file = .ok cc)
    (hdec : Security.decrypt P (Security.init ph) cc = .ok data) :
    Cryptfile.decryptOne P ph fs file = .ok (fsWrite fs cc.filename data) ∧
    (List.isSuffixOf ".enc".data file.data = false →
      Utils._rename file = file ++ ".cryptfile") := by
  constructor
  · simp [Cryptfile.decryptOne, hopen, hdec, Utils.save_file]
  · intro h
    simp [Utils._rename, h]

/-- Witness for C4 amended at the concrete suffix-less artifact. -/
theorem c4_output_named_from_container_witness :
    Cryptfile.decryptOne toyPrims exHash exFS4 "data.bin" =
      .ok (fsWrite exFS4 exCC4.filename [42]) ∧
    (List.isSuffixOf ".enc".data "data.bin".data = false →
      Utils._rename "data.bin" = "data.bin" ++ ".cryptfile") :=
  c4_output_named_from_container toyPrims exHash exFS4 "data.bin" exCC4 [42]
    (by rfl) (by rfl)

theorem readField_split (b rest t r : Bytes)
    (h : pickleField b ++ rest = t ++ r) :
    readField t = .error .unpicklingError ∨
      ∃ t2, t = pickleField b ++ t2 ∧ rest = t2 ++ r ∧
        readField t = .ok (b, t2) := by
  cases t with
  | nil => exact Or.inl rfl
  | cons x t1 =>
    have hx : b.length = x ∧ b ++ rest = t1 ++ r := by
      simpa [pickleField, List.cons_append] using h
    obtain ⟨hx1, hx2⟩ := hx
    by_cases hlen : t1.length < b.length
    · left
      simp [readField, ← hx1, hlen]
    · right
      rcases List.append_eq_append_iff.mp hx2 with ⟨a2, ha1, ha2⟩ | ⟨c2, hc1, hc2⟩
      · refine ⟨a2, ?_, ha2, ?_⟩
        · simp [pickleField, ← hx1, ha1]
        · subst ha1
          simp [readField, ← hx1, List.take_left, List.drop_left]
      · have hc0 : c2.length = 0 := by
          have hb : b.length = t1.length + c2.length := by
            rw [hc1, List.length_append]
          omega
        have hc : c2 = [] := List.length_eq_zero.mp hc0
        subst hc
        rw [List.append_nil] at hc1
        rw [List.nil_append] at hc2
        subst hc1
        subst hc2
        refine ⟨[], by simp [pickleField, ← hx1], by simp, ?_⟩
        simp [readField, ← hx1]

/-- C5 amended: container parse robustness under truncation.  Dropping any
non-empty run of trailing bytes from a serialized container makes
deserialization fail with the unpickling error — the error class of the
pickle library, since the code defines no dedicated `MalformedContainerError`
— and never yields a silently wrong container. -/
theorem c5_truncation_fails (cc : CipherConfig) (t r : Bytes)
    (hsplit : pickleDumpCC cc = t ++ r) (hr : r ≠ []) :
    pickleLoadCC t = .error .unpicklingError := by
  rw [pickleDumpCC] at hsplit
  rcases readField_split cc.ciphertext _ t r hsplit with h1 | ⟨t2, ht2, hrest2, hok1⟩
  · simp [pickleLoadCC, h1]
  · rcases readField_split cc.salt _ t2 r hrest2 with h2 | ⟨t3, ht3, hrest3, hok2⟩
    · simp [pickleLoadCC, hok1, h2]
    · rcases readField_split cc.tag _ t3 r hrest3 with h3 | ⟨t4, ht4, hrest4, hok3⟩
      · simp [pickleLoadCC, hok1, hok2, h3]
      · rcases readField_split cc.nonce _ t4 r hrest4 with h4 | ⟨t5, ht5, hrest5, hok4⟩
        · simp [pickleLoadCC, hok1, hok2, hok3, h4]
        · rcases readField_split (strToBytes cc.filename) [] t5 r
              (by rw [List.append_nil] ; exact hrest5) with h5 | ⟨t6, ht6, hrest6, hok5⟩
          · simp [pickleLoadCC, hok1, hok2, hok3, hok4, h5]
          · have h6 := List.append_eq_nil.mp hrest6.symm
            exact absurd h6.2 hr

/-- Witness for C5 amended at a concrete truncation point of a concrete
serialized container. -/
theorem c5_truncation_fails_witness :
    pickleLoadCC ((pickleDumpCC exCC5).take ((pickleDumpCC exCC5).length - 2)) =
      .error .unpicklingError :=
  c5_truncation_fails exCC5 _ _ (List.take_append_drop _ _).symm (by decide)

/-- C5 is false as stated: deserializing the serialized `exCC5` container
truncated by one trailing byte fails with the pickle library's unpickling
error, which is neither the dedicated `MalformedContainerError` class the
claim requires (the code defines no such class) nor an `IntegrityError`. -/
theorem c5_counterexample :
    pickleLoadCC ((pickleDumpCC exCC5).take ((pickleDumpCC exCC5).length - 1)) =
      .error .unpicklingError ∧
    PyError.unpicklingError ≠ PyError.malformedContainer ∧
    PyError.unpicklingError ≠ PyError.integrityError :=
  ⟨rfl, by decide, by decide⟩
